import Mathlib

/-!
Shallow embedding of the `log` package (a leveled line logger) and of the
`uhash` MD5 helper of the MDGSF/utils repository. Go strings and byte
buffers are modelled as `List Char` / `List Nat`; the mutex and the
`io.Writer` sink are not representable in a pure embedding, so the sink is
passed to `Output` as an explicit write function, and the side effects of an
emit call (writes to the sink, panic, process exit) are recorded as an
explicit event list.
-/

namespace ulog

/-- Go `type Level int`; the constants below are from src/log/logconst.go. -/
abbrev Level := Int

def PanicLevel : Level := 0

def FatalLevel : Level := 1

def ErrorLevel : Level := 2

def WarnLevel : Level := 3

def InfoLevel : Level := 4

def DebugLevel : Level := 5

def VerboseLevel : Level := 6

/-- `MaxContextLen` from src/log/logconst.go. -/
def MaxContextLen : Nat := 66

def Ldate : Nat := 1

def Ltime : Nat := 2

def Lmicroseconds : Nat := 4

def Llongfile : Nat := 8

def Lshortfile : Nat := 16

def LUTC : Nat := 32

def LstdFlags : Nat := Ldate ||| Ltime

def IsTerminal : Nat := 0

def NotTerminal : Nat := 1

def nocolor : Nat := 0

def red : Nat := 31

def green : Nat := 32

def yellow : Nat := 33

def blue : Nat := 36

def gray : Nat := 37

/-- Modelled from the spec: §6 lists a level-tag header flag; the constant
`LLevel` used by `formatHeader` is not defined under src/, so it is taken as
the next free bit after `LUTC`. No claim depends on its numeric value. -/
def LLevel : Nat := 64

/-- Modelled from the spec: §4.1 gives each level a display name; the method
`Level.String` is not under src/ and the exact names are unspecified. No
claim depends on the chosen names. -/
def levelString (level : Level) : List Char :=
  if level = PanicLevel then "PANIC".data
  else if level = FatalLevel then "FATAL".data
  else if level = ErrorLevel then "ERROR".data
  else if level = WarnLevel then "WARN".data
  else if level = InfoLevel then "INFO".data
  else if level = DebugLevel then "DEBUG".data
  else "VERBOSE".data

/-- Modelled from the spec: §4.1 maps each level to one of the color codes of
src/log/logconst.go; the method `Level.Color` is not under src/. No claim
depends on the chosen mapping. -/
def levelColor (level : Level) : Nat :=
  if level = PanicLevel then red
  else if level = FatalLevel then red
  else if level = ErrorLevel then red
  else if level = WarnLevel then yellow
  else if level = InfoLevel then blue
  else gray

/-- The loop of the source's `itoa`, which runs while `i >= 10 || wid > 1`,
each iteration emitting the lowest decimal digit, dividing `i` by ten and
decrementing `wid`. The `fuel` argument is a structural bound on the number
of iterations (`itoa` below always passes a sufficient value), so that the
function computes by kernel reduction. -/
def itoaGo : Nat → Nat → Int → List Char → List Char
  | 0, i, _, acc => Char.ofNat (48 + i) :: acc
  | fuel+1, i, wid, acc =>
    if 10 ≤ i ∨ 1 < wid then
      itoaGo fuel (i / 10) (wid - 1) (Char.ofNat (48 + i % 10) :: acc)
    else
      Char.ofNat (48 + i) :: acc

/-- Cheap integer to fixed-width decimal ASCII (`itoa` of the source); a
negative width avoids zero-padding. The source appends the digits to `*buf`;
here they are returned and the caller appends them. -/
def itoa (i : Nat) (wid : Int) : List Char :=
  itoaGo (i + wid.toNat + 1) i wid []

/-- One wall-clock reading of a Go `time.Time` (year, month, day, clock and
nanoseconds), as consumed by `formatHeader` via `Date`, `Clock` and
`Nanosecond`. -/
structure WallClock where
  year : Nat
  month : Nat
  day : Nat
  hour : Nat
  minute : Nat
  sec : Nat
  nsec : Nat
deriving DecidableEq

/-- A Go `time.Time`, modelled as the wall clock it shows in its own location
together with the wall clock of the same instant in UTC; `t.UTC()` switches
to the latter. -/
structure Time where
  wall : WallClock
  wallUTC : WallClock
deriving DecidableEq

def Time.UTC (t : Time) : Time := ⟨t.wallUTC, t.wallUTC⟩

/-- The `Logger` struct. The mutex is not representable in a pure embedding
(serialization is assumed) and the `io.Writer` field is replaced by passing
the sink to `Output` explicitly. The Go field `prefix` is spelled `prefix_`
because `prefix` is a Lean keyword. -/
structure Logger where
  contentPrefix_ : List Char
  prefix_ : List Char
  suffix : List Char
  flag : Nat
  buf : List Char
  level : Level
  isTerminal : Nat
  callDepth : Nat
deriving DecidableEq

/-- `New` of the source (the sink argument is omitted: it is passed per
call). `contentPrefix` starts at its zero value and `callDepth` at 2. -/
def New (prefix_ suffix : List Char) (flag : Nat) (level : Level) (isTerminal : Nat) : Logger :=
  { contentPrefix_ := []
    prefix_ := prefix_
    suffix := suffix
    flag := flag
    buf := []
    level := level
    isTerminal := isTerminal
    callDepth := 2 }

/-- `fmt.Sprintf "\x1b[%dm%s\x1b[0m" color s` as built by `formatHeader` in
terminal mode. -/
def ansiWrap (color : Nat) (s : List Char) : List Char :=
  Char.ofNat 27 :: '[' :: ((Nat.repr color).data ++ 'm' :: (s ++ Char.ofNat 27 :: "[0m".data))

/-- The level-tag segment of `formatHeader` (gated by `LLevel`; colored when
`isTerminal = IsTerminal`), including its trailing space. -/
def Logger.levelSeg (l : Logger) (level : Level) : List Char :=
  if l.flag &&& LLevel ≠ 0 then
    (if l.isTerminal = IsTerminal then ansiWrap (levelColor level) (levelString level)
     else levelString level) ++ [' ']
  else []

/-- The date/time segment of `formatHeader`: under `Ldate|Ltime|Lmicroseconds`
the time is first switched to UTC when `LUTC` is set, then the date
(`YYYY/MM/DD `) and the clock (`HH:MM:SS[.micro] `) are appended when their
flag bits are set. -/
def Logger.dateTimeSeg (l : Logger) (t : Time) : List Char :=
  if l.flag &&& (Ldate ||| Ltime ||| Lmicroseconds) ≠ 0 then
    let t := if l.flag &&& LUTC ≠ 0 then t.UTC else t
    (if l.flag &&& Ldate ≠ 0 then
      itoa t.wall.year 4 ++ '/' :: (itoa t.wall.month 2 ++ '/' :: (itoa t.wall.day 2 ++ [' ']))
     else []) ++
    (if l.flag &&& (Ltime ||| Lmicroseconds) ≠ 0 then
      itoa t.wall.hour 2 ++ ':' :: (itoa t.wall.minute 2 ++ ':' :: (itoa t.wall.sec 2 ++
        ((if l.flag &&& Lmicroseconds ≠ 0 then '.' :: itoa (t.wall.nsec / 1000) 6 else []) ++ [' '])))
     else [])
  else []

/-- The `Lshortfile` stripping loop of `formatHeader`: scan the indices
`len-1, …, 1` (the loop condition is `i > 0`, so index 0 is never examined)
and keep what follows the first slash found. -/
def shortAux (file : List Char) : Nat → List Char
  | 0 => file
  | i+1 => if file[i+1]? = some '/' then file.drop (i+2) else shortAux file i

def shortFile (file : List Char) : List Char :=
  shortAux file (file.length - 1)

/-- The file/line segment of `formatHeader` (gated by `Lshortfile|Llongfile`):
the possibly stripped path, a colon, the unpadded line number and `": "`. -/
def Logger.fileSeg (l : Logger) (file : List Char) (line : Nat) : List Char :=
  if l.flag &&& (Lshortfile ||| Llongfile) ≠ 0 then
    (if l.flag &&& Lshortfile ≠ 0 then shortFile file else file) ++
      ':' :: (itoa line (-1) ++ ": ".data)
  else []

/-- `formatHeader` of the source: appends to `buf` the prefix, then the level
tag, date/time and file:line segments, each gated by its flag bits. -/
def Logger.formatHeader (l : Logger) (buf : List Char) (t : Time) (file : List Char) (line : Nat) (level : Level) : List Char :=
  buf ++ l.prefix_ ++ l.levelSeg level ++ l.dateTimeSeg t ++ l.fileSeg file line

/-- What `runtime.Caller` reports: a file path and a line, or `none` on
resolution failure. -/
abbrev CallerInfo := List Char × Nat

/-- The sink: one write call takes the line's bytes and returns `none` on
success or the write error. -/
abbrev Sink := List Char → Option String

/-- Observable side effects of an emit call. -/
inductive Ev where
  | write (line : List Char)
  | panicked (msg : List Char)
  | exited (code : Nat)
deriving DecidableEq

/-- The file/line resolution step of `Output`: outside the file flags the Go
variables keep their zero values `""` and `0`; under the file flags a failed
`runtime.Caller` is replaced by `"???"` and `0`. -/
def resolveFileLine (l : Logger) (caller : Option CallerInfo) : List Char × Nat :=
  if l.flag &&& (Lshortfile ||| Llongfile) ≠ 0 then
    match caller with
    | some fl => fl
    | none => ("???".data, 0)
  else ([], 0)

/-- The body step of `Output`: a message ending in a newline has that newline
stripped and the logical length `sLen` decremented. Returns the appended body
and `sLen`. -/
def stripBody (s : List Char) : List Char × Nat :=
  if s.getLast? = some '\n' then (s.dropLast, s.length - 1) else (s, s.length)

/-- Header plus content prefix: the state of `l.buf` in `Output` right before
the message body is appended. -/
def Logger.headerContent (l : Logger) (t : Time) (caller : Option CallerInfo) (level : Level) : List Char :=
  let fl := resolveFileLine l caller
  let hdr := l.formatHeader [] t fl.1 fl.2 level
  if 0 < l.contentPrefix_.length then hdr ++ l.contentPrefix_ else hdr

/-- The buffer of `Output` after body, padding and suffix, before the final
newline check: with a non-empty suffix and `sLen < MaxContextLen` the body is
right-padded with spaces up to `MaxContextLen` before the suffix. -/
def Logger.preNewline (l : Logger) (t : Time) (caller : Option CallerInfo) (s : List Char) (level : Level) : List Char :=
  let hc := l.headerContent t caller level
  let body := (stripBody s).1
  let sLen := (stripBody s).2
  let afterBody := hc ++ body
  if 0 < l.suffix.length then
    (if sLen < MaxContextLen then afterBody ++ List.replicate (MaxContextLen - sLen) ' ' else afterBody)
      ++ l.suffix
  else afterBody

/-- The final-newline step of `Output`: append a newline only when the buffer
is empty or does not already end in one. -/
def ensureNewline (buf : List Char) : List Char :=
  if buf.length = 0 ∨ buf.getLast? ≠ some '\n' then buf ++ ['\n'] else buf

/-- The fully assembled line that `Output` writes. -/
def Logger.outputBuf (l : Logger) (t : Time) (caller : Option CallerInfo) (s : List Char) (level : Level) : List Char :=
  ensureNewline (l.preNewline t caller s level)

structure OutputResult where
  logger : Logger
  events : List Ev
  err : Option String
deriving DecidableEq

/-- `Output` of the source: assembles the line into `l.buf` and performs one
write call to the sink, returning exactly that call's error. -/
def Logger.Output (l : Logger) (t : Time) (caller : Option CallerInfo) (s : List Char) (level : Level) (w : Sink) : OutputResult :=
  let buf := l.outputBuf t caller s level
  { logger := { l with buf := buf }, events := [Ev.write buf], err := w buf }

/-- `Panic`: log at `PanicLevel` unconditionally, then panic with exactly the
formatted message. The argument `s` stands for the `fmt.Sprint` result. -/
def Logger.Panic (l : Logger) (t : Time) (caller : Option CallerInfo) (s : List Char) (w : Sink) : Logger × List Ev :=
  let r := l.Output t caller s PanicLevel w
  (r.logger, r.events ++ [Ev.panicked s])

/-- `Panicf`: as `Panic`, with `s` standing for the `fmt.Sprintf` result. -/
def Logger.Panicf (l : Logger) (t : Time) (caller : Option CallerInfo) (s : List Char) (w : Sink) : Logger × List Ev :=
  let r := l.Output t caller s PanicLevel w
  (r.logger, r.events ++ [Ev.panicked s])

/-- `Panicln`: as `Panic`, with `s` standing for the `fmt.Sprintln` result. -/
def Logger.Panicln (l : Logger) (t : Time) (caller : Option CallerInfo) (s : List Char) (w : Sink) : Logger × List Ev :=
  let r := l.Output t caller s PanicLevel w
  (r.logger, r.events ++ [Ev.panicked s])

/-- `Fatal`: log at `FatalLevel` unconditionally, then `os.Exit(1)`. -/
def Logger.Fatal (l : Logger) (t : Time) (caller : Option CallerInfo) (s : List Char) (w : Sink) : Logger × List Ev :=
  let r := l.Output t caller s FatalLevel w
  (r.logger, r.events ++ [Ev.exited 1])

/-- `Fatalf`: as `Fatal`, with `s` standing for the `fmt.Sprintf` result. -/
def Logger.Fatalf (l : Logger) (t : Time) (caller : Option CallerInfo) (s : List Char) (w : Sink) : Logger × List Ev :=
  let r := l.Output t caller s FatalLevel w
  (r.logger, r.events ++ [Ev.exited 1])

/-- `Fatalln`: as `Fatal`, with `s` standing for the `fmt.Sprintln` result. -/
def Logger.Fatalln (l : Logger) (t : Time) (caller : Option CallerInfo) (s : List Char) (w : Sink) : Logger × List Ev :=
  let r := l.Output t caller s FatalLevel w
  (r.logger, r.events ++ [Ev.exited 1])

/-- `Error`: gated on `l.level >= ErrorLevel`; when suppressed nothing
happens (the Go code does not even format). -/
def Logger.Error (l : Logger) (t : Time) (caller : Option CallerInfo) (s : List Char) (w : Sink) : Logger × List Ev :=
  if l.level ≥ ErrorLevel then
    let r := l.Output t caller s ErrorLevel w
    (r.logger, r.events)
  else (l, [])

def Logger.Errorf (l : Logger) (t : Time) (caller : Option CallerInfo) (s : List Char) (w : Sink) : Logger × List Ev :=
  if l.level ≥ ErrorLevel then
    let r := l.Output t caller s ErrorLevel w
    (r.logger, r.events)
  else (l, [])

def Logger.Errorln (l : Logger) (t : Time) (caller : Option CallerInfo) (s : List Char) (w : Sink) : Logger × List Ev :=
  if l.level ≥ ErrorLevel then
    let r := l.Output t caller s ErrorLevel w
    (r.logger, r.events)
  else (l, [])

def Logger.Warn (l : Logger) (t : Time) (caller : Option CallerInfo) (s : List Char) (w : Sink) : Logger × List Ev :=
  if l.level ≥ WarnLevel then
    let r := l.Output t caller s WarnLevel w
    (r.logger, r.events)
  else (l, [])

def Logger.Warnf (l : Logger) (t : Time) (caller : Option CallerInfo) (s : List Char) (w : Sink) : Logger × List Ev :=
  if l.level ≥ WarnLevel then
    let r := l.Output t caller s WarnLevel w
    (r.logger, r.events)
  else (l, [])

def Logger.Warnln (l : Logger) (t : Time) (caller : Option CallerInfo) (s : List Char) (w : Sink) : Logger × List Ev :=
  if l.level ≥ WarnLevel then
    let r := l.Output t caller s WarnLevel w
    (r.logger, r.events)
  else (l, [])

def Logger.Info (l : Logger) (t : Time) (caller : Option CallerInfo) (s : List Char) (w : Sink) : Logger × List Ev :=
  if l.level ≥ InfoLevel then
    let r := l.Output t caller s InfoLevel w
    (r.logger, r.events)
  else (l, [])

def Logger.Infof (l : Logger) (t : Time) (caller : Option CallerInfo) (s : List Char) (w : Sink) : Logger × List Ev :=
  if l.level ≥ InfoLevel then
    let r := l.Output t caller s InfoLevel w
    (r.logger, r.events)
  else (l, [])

def Logger.Infoln (l : Logger) (t : Time) (caller : Option CallerInfo) (s : List Char) (w : Sink) : Logger × List Ev :=
  if l.level ≥ InfoLevel then
    let r := l.Output t caller s InfoLevel w
    (r.logger, r.events)
  else (l, [])

def Logger.Debug (l : Logger) (t : Time) (caller : Option CallerInfo) (s : List Char) (w : Sink) : Logger × List Ev :=
  if l.level ≥ DebugLevel then
    let r := l.Output t caller s DebugLevel w
    (r.logger, r.events)
  else (l, [])

def Logger.Debugf (l : Logger) (t : Time) (caller : Option CallerInfo) (s : List Char) (w : Sink) : Logger × List Ev :=
  if l.level ≥ DebugLevel then
    let r := l.Output t caller s DebugLevel w
    (r.logger, r.events)
  else (l, [])

def Logger.Debugln (l : Logger) (t : Time) (caller : Option CallerInfo) (s : List Char) (w : Sink) : Logger × List Ev :=
  if l.level ≥ DebugLevel then
    let r := l.Output t caller s DebugLevel w
    (r.logger, r.events)
  else (l, [])

def Logger.Verbose (l : Logger) (t : Time) (caller : Option CallerInfo) (s : List Char) (w : Sink) : Logger × List Ev :=
  if l.level ≥ VerboseLevel then
    let r := l.Output t caller s VerboseLevel w
    (r.logger, r.events)
  else (l, [])

def Logger.Verbosef (l : Logger) (t : Time) (caller : Option CallerInfo) (s : List Char) (w : Sink) : Logger × List Ev :=
  if l.level ≥ VerboseLevel then
    let r := l.Output t caller s VerboseLevel w
    (r.logger, r.events)
  else (l, [])

def Logger.Verboseln (l : Logger) (t : Time) (caller : Option CallerInfo) (s : List Char) (w : Sink) : Logger × List Ev :=
  if l.level ≥ VerboseLevel then
    let r := l.Output t caller s VerboseLevel w
    (r.logger, r.events)
  else (l, [])

/-- Getter `Level()` of the source. -/
def Logger.Level (l : Logger) : Int := l.level

/-- Setter `SetLevel` of the source. -/
def Logger.SetLevel (l : Logger) (level : Int) : Logger := { l with level := level }

/-- Getter `Flags()` of the source. -/
def Logger.Flags (l : Logger) : Nat := l.flag

/-- Setter `SetFlags` of the source. -/
def Logger.SetFlags (l : Logger) (flag : Nat) : Logger := { l with flag := flag }

/-- Getter `Prefix()` of the source (spelled with a trailing underscore, like
the field). -/
def Logger.Prefix_ (l : Logger) : List Char := l.prefix_

/-- Setter `SetPrefix` of the source. -/
def Logger.SetPrefix_ (l : Logger) (p : List Char) : Logger := { l with prefix_ := p }

/-- Getter `ContentPrefix()` of the source. -/
def Logger.ContentPrefix_ (l : Logger) : List Char := l.contentPrefix_

/-- Setter `SetContentPrefix` of the source. -/
def Logger.SetContentPrefix_ (l : Logger) (p : List Char) : Logger := { l with contentPrefix_ := p }

/-- Getter `Suffix()` of the source. -/
def Logger.Suffix (l : Logger) : List Char := l.suffix

/-- Setter `SetSuffix` of the source. -/
def Logger.SetSuffix (l : Logger) (suffix : List Char) : Logger := { l with suffix := suffix }

/-- The buffer does not end in a newline character. -/
abbrev noNLend (cs : List Char) : Prop := cs.getLast? ≠ some '\n'

/-- The buffer ends in exactly one trailing newline: its last character is a
newline and the character before it (if any) is not. -/
abbrev endsOneNL (cs : List Char) : Prop :=
  cs.getLast? = some '\n' ∧ cs.dropLast.getLast? ≠ some '\n'

/-- The last character is a space. -/
abbrev endsSpace (cs : List Char) : Prop := cs.getLast? = some ' '

/-- The canonical unpadded decimal rendering: most significant digit first,
no leading zero (for comparison with `itoa i (-1)` and `Nat.repr`). -/
def decimalDigits (n : Nat) : List Char :=
  if n < 10 then [Char.ofNat (48 + n)]
  else decimalDigits (n / 10) ++ [Char.ofNat (48 + n % 10)]
termination_by n
decreasing_by exact Nat.div_lt_self (by omega) (by omega)

/-- The timestamp 2009-01-23T01:23:23 (nanoseconds 0) of the spec's header
example, with an identical UTC view. -/
def t20090123 : Time := ⟨⟨2009, 1, 23, 1, 23, 23, 0⟩, ⟨2009, 1, 23, 1, 23, 23, 0⟩⟩

/-- The same timestamp with microsecond part 123123. -/
def t20090123micro : Time :=
  ⟨⟨2009, 1, 23, 1, 23, 23, 123123000⟩, ⟨2009, 1, 23, 1, 23, 23, 123123000⟩⟩

end ulog

namespace uhash

/-!
The repository's `MD5`/`MD5String` (src/uhash/hashmd5.go) wrap the Go
standard library `crypto/md5` and `encoding/hex`, which are not part of the
repository. The MD5 digest below is modelled from RFC 1321 (the algorithm
`crypto/md5` implements); bytes are `Nat` values below 256.
-/

def mask32 : Nat := 0xffffffff

def add32 (a b : Nat) : Nat := (a + b) % 0x100000000

/-- 32-bit left rotation of `x < 2^32` by `n ≤ 32` bits. -/
def rotl32 (x n : Nat) : Nat := ((x <<< n) + (x >>> (32 - n))) % 0x100000000

/-- The 64 sine-derived round constants of RFC 1321. -/
def md5K : List Nat :=
  [0xd76aa478, 0xe8c7b756, 0x242070db, 0xc1bdceee,
   0xf57c0faf, 0x4787c62a, 0xa8304613, 0xfd469501,
   0x698098d8, 0x8b44f7af, 0xffff5bb1, 0x895cd7be,
   0x6b901122, 0xfd987193, 0xa679438e, 0x49b40821,
   0xf61e2562, 0xc040b340, 0x265e5a51, 0xe9b6c7aa,
   0xd62f105d, 0x02441453, 0xd8a1e681, 0xe7d3fbc8,
   0x21e1cde6, 0xc33707d6, 0xf4d50d87, 0x455a14ed,
   0xa9e3e905, 0xfcefa3f8, 0x676f02d9, 0x8d2a4c8a,
   0xfffa3942, 0x8771f681, 0x6d9d6122, 0xfde5380c,
   0xa4beea44, 0x4bdecfa9, 0xf6bb4b60, 0xbebfbc70,
   0x289b7ec6, 0xeaa127fa, 0xd4ef3085, 0x04881d05,
   0xd9d4d039, 0xe6db99e5, 0x1fa27cf8, 0xc4ac5665,
   0xf4292244, 0x432aff97, 0xab9423a7, 0xfc93a039,
   0x655b59c3, 0x8f0ccc92, 0xffeff47d, 0x85845dd1,
   0x6fa87e4f, 0xfe2ce6e0, 0xa3014314, 0x4e0811a1,
   0xf7537e82, 0xbd3af235, 0x2ad7d2bb, 0xeb86d391]

/-- The per-round left-rotation amounts of RFC 1321. -/
def md5S : List Nat :=
  [7, 12, 17, 22, 7, 12, 17, 22, 7, 12, 17, 22, 7, 12, 17, 22,
   5, 9, 14, 20, 5, 9, 14, 20, 5, 9, 14, 20, 5, 9, 14, 20,
   4, 11, 16, 23, 4, 11, 16, 23, 4, 11, 16, 23, 4, 11, 16, 23,
   6, 10, 15, 21, 6, 10, 15, 21, 6, 10, 15, 21, 6, 10, 15, 21]

/-- The round mixing function of RFC 1321 (F, G, H, I by quarter). -/
def md5F (i b c d : Nat) : Nat :=
  if i < 16 then (b &&& c) ||| ((b ^^^ mask32) &&& d)
  else if i < 32 then (d &&& b) ||| ((d ^^^ mask32) &&& c)
  else if i < 48 then b ^^^ c ^^^ d
  else c ^^^ (b ||| (d ^^^ mask32))

/-- The message-word index of round `i` (RFC 1321). -/
def md5G (i : Nat) : Nat :=
  if i < 16 then i
  else if i < 32 then (5 * i + 1) % 16
  else if i < 48 then (3 * i + 5) % 16
  else (7 * i) % 16

structure MD5State where
  a : Nat
  b : Nat
  c : Nat
  d : Nat
deriving DecidableEq

def md5Init : MD5State := ⟨0x67452301, 0xefcdab89, 0x98badcfe, 0x10325476⟩

/-- Little-endian 32-bit word `g` of a 64-byte block. -/
def wordAt (block : List Nat) (g : Nat) : Nat :=
  block.getD (4 * g) 0 + 0x100 * block.getD (4 * g + 1) 0 +
    0x10000 * block.getD (4 * g + 2) 0 + 0x1000000 * block.getD (4 * g + 3) 0

/-- One of the 64 rounds of the RFC 1321 compression function. -/
def md5Step (block : List Nat) (st : MD5State) (i : Nat) : MD5State :=
  let f := md5F i st.b st.c st.d
  let sum := (st.a + f + md5K.getD i 0 + wordAt block (md5G i)) % 0x100000000
  { a := st.d
    b := add32 st.b (rotl32 sum (md5S.getD i 0))
    c := st.b
    d := st.c }

/-- Process one 64-byte block and add the result into the running state. -/
def md5Block (st : MD5State) (block : List Nat) : MD5State :=
  let r := (List.range 64).foldl (md5Step block) st
  ⟨add32 st.a r.a, add32 st.b r.b, add32 st.c r.c, add32 st.d r.d⟩

/-- RFC 1321 padding: a `0x80` byte, zeros up to 56 mod 64, then the bit
length as a little-endian 64-bit number. -/
def md5Pad (data : List Nat) : List Nat :=
  let lenBits := (data.length * 8) % 0x10000000000000000
  data ++ 0x80 :: List.replicate ((119 - data.length % 64) % 64) 0 ++
    [lenBits % 0x100, (lenBits >>> 8) % 0x100, (lenBits >>> 16) % 0x100,
     (lenBits >>> 24) % 0x100, (lenBits >>> 32) % 0x100, (lenBits >>> 40) % 0x100,
     (lenBits >>> 48) % 0x100, (lenBits >>> 56) % 0x100]

/-- Split into chunks of 64 bytes; the `fuel` (the list length at the top
call) makes the recursion structural. -/
def chunksCore : Nat → List Nat → List (List Nat)
  | 0, _ => []
  | fuel+1, l => if l.isEmpty then [] else l.take 64 :: chunksCore fuel (l.drop 64)

def chunks64 (l : List Nat) : List (List Nat) := chunksCore l.length l

/-- Little-endian serialization of one 32-bit word into four bytes. -/
def wordLE (w : Nat) : List Nat :=
  [w % 0x100, (w >>> 8) % 0x100, (w >>> 16) % 0x100, (w >>> 24) % 0x100]

/-- The 16-byte MD5 digest of `data` (RFC 1321). -/
def md5Sum (data : List Nat) : List Nat :=
  let st := (chunks64 (md5Pad data)).foldl md5Block md5Init
  wordLE st.a ++ wordLE st.b ++ wordLE st.c ++ wordLE st.d

/-- Modelled from the spec: the running digest returned by `md5.New()` of the
Go standard library (not repository code), reduced to the bytes written so
far. -/
structure GoMD5 where
  written : List Nat
deriving DecidableEq

def md5New : GoMD5 := ⟨[]⟩

/-- Modelled from the spec: the Go `hash.Hash` contract says `Write` adds
more data to the running hash and never returns an error. -/
def GoMD5.Write (h : GoMD5) (data : List Nat) : GoMD5 × Option String :=
  (⟨h.written ++ data⟩, none)

/-- Go `hasher.Sum(nil)`: the digest of everything written. -/
def GoMD5.Sum (h : GoMD5) : List Nat := md5Sum h.written

/-- The lowercase digit table lookup of `encoding/hex`. -/
def hexDigitChar (n : Nat) : Char :=
  if n < 10 then Char.ofNat (48 + n) else Char.ofNat (87 + n)

/-- `hex.EncodeToString`: two lowercase hex digits per byte. -/
def hexEncode (bs : List Nat) : List Char :=
  (bs.map (fun b => [hexDigitChar (b >>> 4), hexDigitChar (b &&& 0xf)])).flatten

/-- `MD5` of src/uhash/hashmd5.go: hex digest of the data plus the error of
`hasher.Write`. -/
def MD5 (data : List Nat) : String × Option String :=
  let hasher := md5New
  match hasher.Write data with
  | (_, some e) => ("", some e)
  | (h, none) => ((hexEncode h.Sum).asString, none)

/-- Go `[]byte(str)`: the UTF-8 bytes of a string. -/
def strBytes (s : String) : List Nat := s.toUTF8.toList.map (fun b => b.toNat)

/-- `MD5String` of src/uhash/hashmd5.go. -/
def MD5String (str : String) : String × Option String := MD5 (strBytes str)

end uhash

namespace ulog

set_option maxRecDepth 8000

/-- C8: every call to `Output` performs exactly one write call to the sink,
with the fully assembled line as payload, and `Output`'s error result is
exactly what that write call returned (`none` on success): the failure is
propagated once, never retried and never buffered. -/
theorem output_single_write_propagates_error :
    ∀ (l : Logger) (t : Time) (c : Option CallerInfo) (s : List Char) (level : Int) (w : Sink),
      (l.Output t c s level w).events = [Ev.write (l.outputBuf t c s level)] ∧
      (l.Output t c s level w).err = w (l.outputBuf t c s level) ∧
      (l.Output t c s level w).logger.buf = l.outputBuf t c s level :=
  fun _ _ _ _ _ _ => ⟨rfl, rfl, rfl⟩

/-- C2: for every configured minimum level, the Panic-family methods call
`Output` unconditionally and then panic with exactly the formatted message,
and the Fatal-family methods call `Output` unconditionally and then exit the
process with status 1; in both families the write event precedes the
termination event. -/
theorem panic_fatal_always_emit_then_terminate :
    ∀ (l : Logger) (t : Time) (c : Option CallerInfo) (s : List Char) (w : Sink),
      (l.Panic t c s w).2 = [Ev.write (l.outputBuf t c s PanicLevel), Ev.panicked s] ∧
      (l.Panicf t c s w).2 = [Ev.write (l.outputBuf t c s PanicLevel), Ev.panicked s] ∧
      (l.Panicln t c s w).2 = [Ev.write (l.outputBuf t c s PanicLevel), Ev.panicked s] ∧
      (l.Fatal t c s w).2 = [Ev.write (l.outputBuf t c s FatalLevel), Ev.exited 1] ∧
      (l.Fatalf t c s w).2 = [Ev.write (l.outputBuf t c s FatalLevel), Ev.exited 1] ∧
      (l.Fatalln t c s w).2 = [Ev.write (l.outputBuf t c s FatalLevel), Ev.exited 1] :=
  fun _ _ _ _ _ => ⟨rfl, rfl, rfl, rfl, rfl, rfl⟩

/-- C1: for every level L in Error, Warn, Info, Debug, Verbose (each of its
printf-, print- and println-style methods) and every configured minimum
level, the method performs a write to the sink if and only if
rank(L) ≤ rank(minimum) in the ordering Panic=0 < Fatal < Error < Warn <
Info < Debug < Verbose; when suppressed, no event at all occurs. -/
theorem level_gating_iff :
    ∀ (l : Logger) (t : Time) (c : Option CallerInfo) (s : List Char) (w : Sink),
      ((l.Error t c s w).2 ≠ [] ↔ ErrorLevel ≤ l.level) ∧
      ((l.Errorf t c s w).2 ≠ [] ↔ ErrorLevel ≤ l.level) ∧
      ((l.Errorln t c s w).2 ≠ [] ↔ ErrorLevel ≤ l.level) ∧
      ((l.Warn t c s w).2 ≠ [] ↔ WarnLevel ≤ l.level) ∧
      ((l.Warnf t c s w).2 ≠ [] ↔ WarnLevel ≤ l.level) ∧
      ((l.Warnln t c s w).2 ≠ [] ↔ WarnLevel ≤ l.level) ∧
      ((l.Info t c s w).2 ≠ [] ↔ InfoLevel ≤ l.level) ∧
      ((l.Infof t c s w).2 ≠ [] ↔ InfoLevel ≤ l.level) ∧
      ((l.Infoln t c s w).2 ≠ [] ↔ InfoLevel ≤ l.level) ∧
      ((l.Debug t c s w).2 ≠ [] ↔ DebugLevel ≤ l.level) ∧
      ((l.Debugf t c s w).2 ≠ [] ↔ DebugLevel ≤ l.level) ∧
      ((l.Debugln t c s w).2 ≠ [] ↔ DebugLevel ≤ l.level) ∧
      ((l.Verbose t c s w).2 ≠ [] ↔ VerboseLevel ≤ l.level) ∧
      ((l.Verbosef t c s w).2 ≠ [] ↔ VerboseLevel ≤ l.level) ∧
      ((l.Verboseln t c s w).2 ≠ [] ↔ VerboseLevel ≤ l.level) := by
  intro l t c s w
  refine ⟨?_, ?_, ?_, ?_, ?_, ?_, ?_, ?_, ?_, ?_, ?_, ?_, ?_, ?_, ?_⟩ <;>
    (simp only [Logger.Error, Logger.Errorf, Logger.Errorln, Logger.Warn, Logger.Warnf,
       Logger.Warnln, Logger.Info, Logger.Infof, Logger.Infoln, Logger.Debug, Logger.Debugf,
       Logger.Debugln, Logger.Verbose, Logger.Verbosef, Logger.Verboseln, Logger.Output,
       ge_iff_le]
     split <;> simp_all)

/-- C9: for each setter/getter pair (level, flags, prefix, content prefix,
suffix) and every value, setting then getting returns exactly that value,
and the setter leaves every other field of the Logger unchanged; every
setter is total (it accepts any value of its type). -/
theorem setter_getter_roundtrip_frame :
    ∀ (l : Logger) (v : Int) (f : Nat) (p cp sf : List Char),
      (l.SetLevel v).Level = v ∧
      (l.SetLevel v).Flags = l.Flags ∧ (l.SetLevel v).Prefix_ = l.Prefix_ ∧
      (l.SetLevel v).ContentPrefix_ = l.ContentPrefix_ ∧ (l.SetLevel v).Suffix = l.Suffix ∧
      (l.SetLevel v).isTerminal = l.isTerminal ∧ (l.SetLevel v).callDepth = l.callDepth ∧
      (l.SetLevel v).buf = l.buf ∧
      (l.SetFlags f).Flags = f ∧
      (l.SetFlags f).Level = l.Level ∧ (l.SetFlags f).Prefix_ = l.Prefix_ ∧
      (l.SetFlags f).ContentPrefix_ = l.ContentPrefix_ ∧ (l.SetFlags f).Suffix = l.Suffix ∧
      (l.SetFlags f).isTerminal = l.isTerminal ∧ (l.SetFlags f).callDepth = l.callDepth ∧
      (l.SetFlags f).buf = l.buf ∧
      (l.SetPrefix_ p).Prefix_ = p ∧
      (l.SetPrefix_ p).Level = l.Level ∧ (l.SetPrefix_ p).Flags = l.Flags ∧
      (l.SetPrefix_ p).ContentPrefix_ = l.ContentPrefix_ ∧ (l.SetPrefix_ p).Suffix = l.Suffix ∧
      (l.SetPrefix_ p).isTerminal = l.isTerminal ∧ (l.SetPrefix_ p).callDepth = l.callDepth ∧
      (l.SetPrefix_ p).buf = l.buf ∧
      (l.SetContentPrefix_ cp).ContentPrefix_ = cp ∧
      (l.SetContentPrefix_ cp).Level = l.Level ∧ (l.SetContentPrefix_ cp).Flags = l.Flags ∧
      (l.SetContentPrefix_ cp).Prefix_ = l.Prefix_ ∧ (l.SetContentPrefix_ cp).Suffix = l.Suffix ∧
      (l.SetContentPrefix_ cp).isTerminal = l.isTerminal ∧
      (l.SetContentPrefix_ cp).callDepth = l.callDepth ∧
      (l.SetContentPrefix_ cp).buf = l.buf ∧
      (l.SetSuffix sf).Suffix = sf ∧
      (l.SetSuffix sf).Level = l.Level ∧ (l.SetSuffix sf).Flags = l.Flags ∧
      (l.SetSuffix sf).Prefix_ = l.Prefix_ ∧ (l.SetSuffix sf).ContentPrefix_ = l.ContentPrefix_ ∧
      (l.SetSuffix sf).isTerminal = l.isTerminal ∧ (l.SetSuffix sf).callDepth = l.callDepth ∧
      (l.SetSuffix sf).buf = l.buf := by
  intro l v f p cp sf
  and_intros <;> rfl

/-- C3: with flags = date|time only and timestamp 2009-01-23T01:23:23, the
body "message" assembles to exactly "2009/01/23 01:23:23 message\n"; with
flags = date|time|microseconds and microsecond part 123123, the rendered
date/time segment is exactly "2009/01/23 01:23:23.123123 " (4-digit year,
2-digit month/day/hour/minute/second, 6-digit microseconds, zero-padded). -/
theorem header_rendering_examples :
    (New [] [] (Ldate ||| Ltime) InfoLevel NotTerminal).outputBuf t20090123 none
        "message".data InfoLevel = "2009/01/23 01:23:23 message\n".data ∧
    (New [] [] (Ldate ||| Ltime ||| Lmicroseconds) InfoLevel NotTerminal).formatHeader []
        t20090123micro [] 0 InfoLevel = "2009/01/23 01:23:23.123123 ".data := by
  decide

/-- C4 counterexample: with configured suffix "\n\n", the body "a\n" ends in
exactly one trailing newline, yet the assembled output does not end in
exactly one trailing newline (a blank line is produced), refuting the claim
as stated for every message body. -/
theorem trailing_newline_counterexample :
    ("a\n".data).getLast? = some '\n' ∧ ("a\n".data).dropLast.getLast? ≠ some '\n' ∧
    ¬ endsOneNL ((New [] "\n\n".data 0 InfoLevel NotTerminal).outputBuf t20090123 none
        "a\n".data InfoLevel) := by
  decide

/-- C6 counterexample: for the file path "/d.go" (whose only slash is its
first character) with the short-file flag, the rendered location segment is
"/d.go:23: ", not the "d.go:23: " that stripping everything up to and
including the last slash would give: the loop never examines index 0. -/
theorem shortfile_strip_counterexample :
    (New [] [] Lshortfile InfoLevel NotTerminal).fileSeg "/d.go".data 23 = "/d.go:23: ".data ∧
    (New [] [] Lshortfile InfoLevel NotTerminal).fileSeg "/d.go".data 23 ≠ "d.go:23: ".data := by
  decide

end ulog

namespace ulog

/-- C7: when file/line reporting is enabled and caller resolution fails,
`Output` substitutes the placeholder file "???" and line 0 (the location
segment renders as "???:0: "), behaves exactly as if the caller had resolved
to that placeholder, and still formats and writes; the failure never
surfaces in `Output`'s result, which stays exactly the write call's error. -/
theorem caller_failure_placeholder :
    ∀ (l : Logger) (t : Time) (s : List Char) (level : Int) (w : Sink),
      l.flag &&& (Lshortfile ||| Llongfile) ≠ 0 →
        resolveFileLine l none = ("???".data, 0) ∧
        l.Output t none s level w = l.Output t (some ("???".data, 0)) s level w ∧
        (l.Output t none s level w).err = w (l.outputBuf t none s level) ∧
        (New [] [] Lshortfile InfoLevel NotTerminal).fileSeg "???".data 0 = "???:0: ".data := by
  intro l t s level w h
  have hr2 : resolveFileLine l none = resolveFileLine l (some ("???".data, 0)) := by
    simp [resolveFileLine, h]
  refine ⟨by simp [resolveFileLine, h], ?_, rfl, by decide⟩
  simp [Logger.Output, Logger.outputBuf, Logger.preNewline, Logger.headerContent, hr2]

/-- C7 witness: the theorem applied to a logger with the short-file flag. -/
theorem caller_failure_placeholder_witness :
    resolveFileLine (New [] [] Lshortfile InfoLevel NotTerminal) none = ("???".data, 0) ∧
    (New [] [] Lshortfile InfoLevel NotTerminal).Output t20090123 none "x".data InfoLevel
        (fun _ => none) =
      (New [] [] Lshortfile InfoLevel NotTerminal).Output t20090123 (some ("???".data, 0))
        "x".data InfoLevel (fun _ => none) :=
  ⟨(caller_failure_placeholder (New [] [] Lshortfile InfoLevel NotTerminal) t20090123 "x".data
      InfoLevel (fun _ => none) (by decide)).1,
   (caller_failure_placeholder (New [] [] Lshortfile InfoLevel NotTerminal) t20090123 "x".data
      InfoLevel (fun _ => none) (by decide)).2.1⟩

/-- C5: with a non-empty suffix and logical body length (after stripping one
trailing newline) below 66, exactly 66 − length spaces are inserted between
body and suffix; with logical length at least 66 the suffix immediately
follows the body; with an empty suffix no padding is ever inserted. -/
theorem suffix_padding :
    ∀ (l : Logger) (t : Time) (c : Option CallerInfo) (s : List Char) (level : Int),
      (l.suffix ≠ [] → (stripBody s).2 < MaxContextLen →
        l.preNewline t c s level =
          l.headerContent t c level ++ (stripBody s).1 ++
            List.replicate (MaxContextLen - (stripBody s).2) ' ' ++ l.suffix) ∧
      (l.suffix ≠ [] → MaxContextLen ≤ (stripBody s).2 →
        l.preNewline t c s level =
          l.headerContent t c level ++ (stripBody s).1 ++ l.suffix) ∧
      (l.suffix = [] →
        l.preNewline t c s level = l.headerContent t c level ++ (stripBody s).1) := by
  intro l t c s level
  refine ⟨fun h1 h2 => ?_, fun h1 h2 => ?_, fun h1 => ?_⟩
  · simp [Logger.preNewline, List.length_pos, h1, h2, List.append_assoc]
  · simp [Logger.preNewline, List.length_pos, h1, Nat.not_lt.mpr h2, List.append_assoc]
  · simp [Logger.preNewline, h1]

/-- C5 witness: the padded case at a concrete logger and body. -/
theorem suffix_padding_witness :
    (New [] "S".data 0 InfoLevel NotTerminal).preNewline t20090123 none "ab".data InfoLevel =
      (New [] "S".data 0 InfoLevel NotTerminal).headerContent t20090123 none InfoLevel ++
        (stripBody "ab".data).1 ++
        List.replicate (MaxContextLen - (stripBody "ab".data).2) ' ' ++
        (New [] "S".data 0 InfoLevel NotTerminal).suffix :=
  (suffix_padding (New [] "S".data 0 InfoLevel NotTerminal) t20090123 none "ab".data
      InfoLevel).1 (by decide) (by decide)

end ulog

namespace ulog

theorem endsSpace_append (x : List Char) {y : List Char} (hy : endsSpace y) :
    endsSpace (x ++ y) := by
  simp [endsSpace, List.getLast?_append, hy]

theorem endsSpace_cons (c : Char) {z : List Char} (hz : endsSpace z) : endsSpace (c :: z) :=
  endsSpace_append [c] hz

theorem noNLend_of_endsSpace {x : List Char} (h : endsSpace x) : noNLend x := by
  rw [noNLend, h]
  decide

theorem noNLend_of_nil_or_space {x : List Char} (h : x = [] ∨ endsSpace x) : noNLend x := by
  rcases h with h | h
  · subst h; simp [noNLend]
  · exact noNLend_of_endsSpace h

theorem noNLend_append {x y : List Char} (hx : noNLend x) (hy : noNLend y) :
    noNLend (x ++ y) := by
  rw [noNLend, List.getLast?_append]
  cases hy' : y.getLast? with
  | none => simpa using hx
  | some c => simpa [hy'] using hy

theorem noNLend_replicate_space (k : Nat) : noNLend (List.replicate k ' ') := by
  intro h
  rw [List.getLast?_replicate] at h
  split at h <;> simp_all

theorem nil_or_space_append {a b : List Char} (ha : a = [] ∨ endsSpace a)
    (hb : b = [] ∨ endsSpace b) : a ++ b = [] ∨ endsSpace (a ++ b) := by
  rcases hb with hb | hb
  · subst hb; simpa using ha
  · exact Or.inr (endsSpace_append a hb)

theorem levelSeg_nil_or_space (l : Logger) (level : Int) :
    l.levelSeg level = [] ∨ endsSpace (l.levelSeg level) := by
  rw [Logger.levelSeg]
  split
  · exact Or.inr (List.getLast?_concat _)
  · exact Or.inl rfl

theorem dateTimeSeg_nil_or_space (l : Logger) (t : Time) :
    l.dateTimeSeg t = [] ∨ endsSpace (l.dateTimeSeg t) := by
  have hdate : ∀ a b c : List Char, endsSpace (a ++ '/' :: (b ++ '/' :: (c ++ [' ']))) :=
    fun a b c =>
      endsSpace_append _ (endsSpace_cons _ (endsSpace_append _ (endsSpace_cons _
        (List.getLast?_concat _))))
  have htime : ∀ a b c m : List Char,
      endsSpace (a ++ ':' :: (b ++ ':' :: (c ++ (m ++ [' '])))) :=
    fun a b c m =>
      endsSpace_append _ (endsSpace_cons _ (endsSpace_append _ (endsSpace_cons _
        (endsSpace_append _ (List.getLast?_concat _)))))
  rw [Logger.dateTimeSeg]
  split
  · dsimp only
    apply nil_or_space_append
    · split
      · exact Or.inr (hdate _ _ _)
      · exact Or.inl rfl
    · split
      · exact Or.inr (htime _ _ _ _)
      · exact Or.inl rfl
  · exact Or.inl rfl

theorem fileSeg_nil_or_space (l : Logger) (f : List Char) (n : Nat) :
    l.fileSeg f n = [] ∨ endsSpace (l.fileSeg f n) := by
  rw [Logger.fileSeg]
  split
  · exact Or.inr (endsSpace_append _ (endsSpace_cons _ (endsSpace_append _ (by decide))))
  · exact Or.inl rfl

theorem noNLend_headerContent (l : Logger) (t : Time) (c : Option CallerInfo) (level : Int)
    (h1 : noNLend l.prefix_) (h2 : noNLend l.contentPrefix_) :
    noNLend (l.headerContent t c level) := by
  have hh : noNLend (l.formatHeader [] t (resolveFileLine l c).1 (resolveFileLine l c).2 level) := by
    rw [Logger.formatHeader]
    refine noNLend_append (noNLend_append (noNLend_append (noNLend_append ?_ h1) ?_) ?_) ?_
    · simp [noNLend]
    · exact noNLend_of_nil_or_space (levelSeg_nil_or_space l level)
    · exact noNLend_of_nil_or_space (dateTimeSeg_nil_or_space l t)
    · exact noNLend_of_nil_or_space (fileSeg_nil_or_space l _ _)
  simp only [Logger.headerContent]
  split
  · exact noNLend_append hh h2
  · exact hh

theorem noNLend_preNewline (l : Logger) (t : Time) (c : Option CallerInfo) (s : List Char)
    (level : Int) (h1 : noNLend l.prefix_) (h2 : noNLend l.contentPrefix_)
    (h3 : noNLend l.suffix) (hb : noNLend (stripBody s).1) :
    noNLend (l.preNewline t c s level) := by
  have hhc := noNLend_headerContent l t c level h1 h2
  simp only [Logger.preNewline]
  split
  · refine noNLend_append ?_ h3
    split
    · exact noNLend_append (noNLend_append hhc hb) (noNLend_replicate_space _)
    · exact noNLend_append hhc hb
  · exact noNLend_append hhc hb

theorem ensureNewline_eq_concat {v : List Char} (h : noNLend v) :
    ensureNewline v = v ++ ['\n'] := by
  rw [ensureNewline, if_pos (Or.inr h)]

theorem endsOneNL_concat {v : List Char} (h : noNLend v) : endsOneNL (v ++ ['\n']) :=
  ⟨List.getLast?_concat _, by rwa [List.dropLast_concat]⟩

theorem stripBody_concat_newline (b : List Char) : stripBody (b ++ ['\n']) = (b, b.length) := by
  rw [stripBody, if_pos (List.getLast?_concat _)]
  simp

theorem stripBody_of_noNLend {b : List Char} (hb : noNLend b) : stripBody b = (b, b.length) := by
  rw [stripBody, if_neg hb]

/-- C4 amended: for every message body and every configuration whose line
prefix, content prefix and suffix do not end in a newline character: a body
ending in exactly one trailing newline has that newline stripped (the
assembled line is the same as for the body without it), and the assembled
line always ends in exactly one trailing newline, obtained by appending a
single newline to the newline-free assembled content. -/
theorem trailing_newline_amended :
    ∀ (l : Logger) (t : Time) (c : Option CallerInfo) (level : Int) (b : List Char),
      noNLend l.prefix_ → noNLend l.contentPrefix_ → noNLend l.suffix → noNLend b →
        l.outputBuf t c (b ++ ['\n']) level = l.outputBuf t c b level ∧
        l.outputBuf t c b level = l.preNewline t c b level ++ ['\n'] ∧
        endsOneNL (l.outputBuf t c b level) := by
  intro l t c level b h1 h2 h3 hb
  have hstrip : stripBody (b ++ ['\n']) = stripBody b := by
    rw [stripBody_concat_newline, stripBody_of_noNLend hb]
  have hpre : l.preNewline t c (b ++ ['\n']) level = l.preNewline t c b level := by
    simp only [Logger.preNewline, hstrip]
  have hbody : noNLend (stripBody b).1 := by rw [stripBody_of_noNLend hb]; exact hb
  have hnl := noNLend_preNewline l t c b level h1 h2 h3 hbody
  refine ⟨?_, ?_, ?_⟩
  · rw [Logger.outputBuf, hpre, Logger.outputBuf]
  · rw [Logger.outputBuf, ensureNewline_eq_concat hnl]
  · rw [Logger.outputBuf, ensureNewline_eq_concat hnl]
    exact endsOneNL_concat hnl

/-- C4 witness: the amended theorem at a concrete logger and body. -/
theorem trailing_newline_amended_witness :
    (New [] "S".data 0 InfoLevel NotTerminal).outputBuf t20090123 none ("a".data ++ ['\n'])
        InfoLevel =
      (New [] "S".data 0 InfoLevel NotTerminal).outputBuf t20090123 none "a".data InfoLevel ∧
    endsOneNL ((New [] "S".data 0 InfoLevel NotTerminal).outputBuf t20090123 none "a".data
        InfoLevel) :=
  ⟨(trailing_newline_amended (New [] "S".data 0 InfoLevel NotTerminal) t20090123 none InfoLevel
      "a".data (by decide) (by decide) (by decide) (by decide)).1,
   (trailing_newline_amended (New [] "S".data 0 InfoLevel NotTerminal) t20090123 none InfoLevel
      "a".data (by decide) (by decide) (by decide) (by decide)).2.2⟩

end ulog

namespace ulog

theorem shortAux_skip (file : List Char) (i : Nat) :
    ∀ k : Nat, (∀ j, i < j → j ≤ i + k → file[j]? ≠ some '/') →
      shortAux file (i + k) = shortAux file i := by
  intro k
  induction k with
  | zero => intro _; rfl
  | succ k ih =>
    intro h
    show (if file[(i + k) + 1]? = some '/' then file.drop ((i + k) + 2)
          else shortAux file (i + k)) = shortAux file i
    rw [if_neg (h (i + k + 1) (by omega) (by omega))]
    exact ih (fun j h1 h2 => h j h1 (by omega))

theorem shortAux_no_slash (file : List Char) :
    ∀ i : Nat, (∀ j, 1 ≤ j → j ≤ i → file[j]? ≠ some '/') → shortAux file i = file := by
  intro i
  induction i with
  | zero => intro _; rfl
  | succ i ih =>
    intro h
    show (if file[i + 1]? = some '/' then file.drop (i + 2) else shortAux file i) = file
    rw [if_neg (h (i + 1) (by omega) (by omega))]
    exact ih (fun j h1 h2 => h j h1 (by omega))

theorem shortFile_strip {a b : List Char} (ha : a ≠ []) (hb : '/' ∉ b) :
    shortFile (a ++ '/' :: b) = b := by
  have hlen : (a ++ '/' :: b).length = a.length + b.length + 1 := by
    simp [List.length_append]
    omega
  have hget : ∀ j, a.length < j → j ≤ a.length + b.length → (a ++ '/' :: b)[j]? ≠ some '/' := by
    intro j hj1 hj2 hcontra
    rw [List.getElem?_append_right (by omega)] at hcontra
    rw [show j - a.length = (j - a.length - 1) + 1 from by omega,
      List.getElem?_cons_succ] at hcontra
    exact hb (List.getElem?_mem hcontra)
  have hstep : shortFile (a ++ '/' :: b) = shortAux (a ++ '/' :: b) a.length := by
    rw [shortFile, show (a ++ '/' :: b).length - 1 = a.length + b.length from by omega]
    exact shortAux_skip _ a.length b.length hget
  rw [hstep]
  obtain ⟨m, hm⟩ : ∃ m, a.length = m + 1 :=
    ⟨a.length - 1, by have := List.length_pos.mpr ha; omega⟩
  rw [hm]
  show (if (a ++ '/' :: b)[m + 1]? = some '/' then (a ++ '/' :: b).drop (m + 2) else _) = b
  have hsl : (a ++ '/' :: b)[m + 1]? = some '/' := by
    rw [show m + 1 = a.length from hm.symm, List.getElem?_append_right (le_refl _)]
    simp
  rw [if_pos hsl, show m + 2 = a.length + 1 from by omega,
    show a ++ '/' :: b = (a ++ ['/']) ++ b from by simp,
    show a.length + 1 = (a ++ ['/']).length from by simp]
  exact List.drop_left _ _

theorem shortFile_no_slash {f : List Char} (hf : '/' ∉ f) : shortFile f = f := by
  rw [shortFile]
  apply shortAux_no_slash
  intro j _ _ hcontra
  exact hf (List.getElem?_mem hcontra)

theorem digitChar_lt10 {n : Nat} (h : n < 10) : Nat.digitChar n = Char.ofNat (48 + n) := by
  interval_cases n <;> decide

theorem decimalDigits_lt10 {n : Nat} (h : n < 10) :
    decimalDigits n = [Char.ofNat (48 + n)] := by
  rw [decimalDigits, if_pos h]

theorem decimalDigits_ge10 {n : Nat} (h : 10 ≤ n) :
    decimalDigits n = decimalDigits (n / 10) ++ [Char.ofNat (48 + n % 10)] := by
  rw [decimalDigits, if_neg (by omega)]

theorem itoaGo_decimal :
    ∀ (fuel n : Nat) (w : Int) (acc : List Char), n < fuel → w ≤ 1 →
      itoaGo fuel n w acc = decimalDigits n ++ acc := by
  intro fuel
  induction fuel with
  | zero => intro n w acc hn _; omega
  | succ fuel ih =>
    intro n w acc hn hw
    show (if 10 ≤ n ∨ 1 < w then itoaGo fuel (n / 10) (w - 1) (Char.ofNat (48 + n % 10) :: acc)
          else Char.ofNat (48 + n) :: acc) = decimalDigits n ++ acc
    by_cases h10 : 10 ≤ n
    · rw [if_pos (Or.inl h10)]
      have hdiv : n / 10 < n := Nat.div_lt_self (by omega) (by omega)
      rw [ih (n / 10) (w - 1) _ (by omega) (by omega), decimalDigits_ge10 h10]
      simp
    · rw [if_neg (by omega), decimalDigits_lt10 (by omega)]
      rfl

theorem toDigitsCore_decimal :
    ∀ (fuel n : Nat) (ds : List Char), n < fuel →
      Nat.toDigitsCore 10 fuel n ds = decimalDigits n ++ ds := by
  intro fuel
  induction fuel with
  | zero => intro n ds hn; omega
  | succ fuel ih =>
    intro n ds hn
    show (if n / 10 = 0 then Nat.digitChar (n % 10) :: ds
          else Nat.toDigitsCore 10 fuel (n / 10) (Nat.digitChar (n % 10) :: ds))
        = decimalDigits n ++ ds
    by_cases h : n / 10 = 0
    · rw [if_pos h]
      have hn10 : n < 10 := by
        by_contra hc
        have : 1 ≤ n / 10 := Nat.one_le_div_iff (by omega) |>.mpr (by omega)
        omega
      rw [decimalDigits_lt10 hn10, Nat.mod_eq_of_lt hn10, digitChar_lt10 hn10]
      rfl
    · rw [if_neg h]
      have h10 : 10 ≤ n := by
        by_contra hc
        exact h (Nat.div_eq_of_lt (by omega))
      have hdiv : n / 10 < n := Nat.div_lt_self (by omega) (by omega)
      rw [ih (n / 10) _ (by omega), decimalDigits_ge10 h10,
        digitChar_lt10 (Nat.mod_lt _ (by omega))]
      simp

/-- C6 amended: with the short-file flag, everything up to and including the
last slash is stripped provided that slash is not the path's first character
(a component before it exists); a path with no slash is kept whole; the
spec's concrete examples "/a/b/c/d.go" render as "d.go:23: " (short) and
"/a/b/c/d.go:23: " (long); and the line number is rendered unpadded with
minimal digit count (it agrees with the canonical decimal rendering
`Nat.repr`). A slash at index 0 only is never stripped (see the
counterexample), which is the one restriction added to the claim. -/
theorem shortfile_strip_amended :
    (∀ a b : List Char, a ≠ [] → '/' ∉ b → shortFile (a ++ '/' :: b) = b) ∧
    (∀ f : List Char, '/' ∉ f → shortFile f = f) ∧
    (New [] [] Lshortfile InfoLevel NotTerminal).fileSeg "/a/b/c/d.go".data 23
      = "d.go:23: ".data ∧
    (New [] [] Llongfile InfoLevel NotTerminal).fileSeg "/a/b/c/d.go".data 23
      = "/a/b/c/d.go:23: ".data ∧
    (∀ n : Nat, itoa n (-1) = (Nat.repr n).data) := by
  refine ⟨fun a b ha hb => shortFile_strip ha hb, fun f hf => shortFile_no_slash hf,
    by decide, by decide, fun n => ?_⟩
  show itoaGo (n + (-1 : Int).toNat + 1) n (-1) [] = (Nat.repr n).data
  rw [show n + (-1 : Int).toNat + 1 = n + 1 from rfl,
    itoaGo_decimal (n + 1) n (-1) [] (by omega) (by decide)]
  rw [show (Nat.repr n).data = Nat.toDigitsCore 10 (n + 1) n [] from rfl,
    toDigitsCore_decimal (n + 1) n [] (by omega)]

/-- C6 witness: the amended stripping statement at a concrete path whose last
slash sits at a positive index. -/
theorem shortfile_strip_amended_witness :
    shortFile ("a".data ++ '/' :: "d.go".data) = "d.go".data ∧
    itoa 23 (-1) = (Nat.repr 23).data :=
  ⟨shortfile_strip_amended.1 "a".data "d.go".data (by decide) (by decide),
   shortfile_strip_amended.2.2.2.2 23⟩

end ulog

namespace uhash

theorem wordLE_lt256 {b w : Nat} (hb : b ∈ wordLE w) : b < 256 := by
  simp [wordLE] at hb
  rcases hb with h | h | h | h <;> omega

theorem md5Sum_length (data : List Nat) : (md5Sum data).length = 16 := by
  simp [md5Sum, wordLE]

theorem md5Sum_lt256 {data : List Nat} {b : Nat} (hb : b ∈ md5Sum data) : b < 256 := by
  simp only [md5Sum, List.mem_append] at hb
  rcases hb with ((h | h) | h) | h <;> exact wordLE_lt256 h

theorem hexEncode_length (bs : List Nat) : (hexEncode bs).length = 2 * bs.length := by
  induction bs with
  | nil => rfl
  | cons b bs ih =>
    simp only [hexEncode] at ih ⊢
    simp [List.length_append, ih]
    omega

theorem hexDigitChar_mem {n : Nat} (h : n < 16) :
    hexDigitChar n ∈ "0123456789abcdef".data := by
  interval_cases n <;> decide

theorem hexEncode_mem :
    ∀ bs : List Nat, (∀ b ∈ bs, b < 256) →
      ∀ c ∈ hexEncode bs, c ∈ "0123456789abcdef".data := by
  intro bs
  induction bs with
  | nil => intro _ c hc; simp [hexEncode] at hc
  | cons b bs ih =>
    intro hbs c hc
    simp only [hexEncode, List.map_cons, List.flatten_cons, List.mem_append] at hc
    rcases hc with hc | hc
    · have hb : b < 256 := hbs b (List.mem_cons_self b bs)
      have h1 : b >>> 4 < 16 := by
        rw [Nat.shiftRight_eq_div_pow, show (2 : Nat) ^ 4 = 16 from rfl]
        omega
      have h2 : b &&& 15 < 16 := by
        have := Nat.and_le_right (n := b) (m := 15)
        omega
      simp at hc
      rcases hc with hc | hc
      · subst hc; exact hexDigitChar_mem h1
      · subst hc; exact hexDigitChar_mem h2
    · exact ih (fun x hx => hbs x (List.mem_cons_of_mem _ hx)) c hc

set_option maxRecDepth 100000

/-- The RFC 1321 test vector for the empty message (validates the modelled
digest against the published value). -/
theorem md5_rfc_vector_empty : (MD5 []).1 = "d41d8cd98f00b204e9800998ecf8427e" := by decide

/-- The RFC 1321 test vector for "abc". -/
theorem md5_rfc_vector_abc : (MD5 [97, 98, 99]).1 = "900150983cd24fb0d6963f7d28e17f72" := by
  decide

/-- C10: for every input byte slice, `MD5` returns a nil error (the digest's
`Write` never fails, so the error branch is unreachable) together with a
32-character digest made only of lowercase hexadecimal characters, and
`MD5String s` returns exactly `MD5` of the UTF-8 bytes of `s`. -/
theorem md5_wrapper_contract :
    (∀ data : List Nat,
      (MD5 data).2 = none ∧
      (MD5 data).1.length = 32 ∧
      ∀ c ∈ (MD5 data).1.data, c ∈ "0123456789abcdef".data) ∧
    (∀ s : String, MD5String s = MD5 (strBytes s)) := by
  refine ⟨fun data => ⟨rfl, ?_, ?_⟩, fun s => rfl⟩
  · show (hexEncode (md5Sum data)).length = 32
    rw [hexEncode_length, md5Sum_length]
  · intro c hc
    exact hexEncode_mem _ (fun b hb => md5Sum_lt256 hb) c hc

/-- C10 witness: the contract applied at the empty byte slice and one digest
character. -/
theorem md5_wrapper_contract_witness :
    (MD5 []).2 = none ∧ 'd' ∈ "0123456789abcdef".data :=
  ⟨(md5_wrapper_contract.1 []).1,
   (md5_wrapper_contract.1 []).2.2 'd' (by decide)⟩

end uhash
